import Mathlib

/-!
Verification of the reconciliation / payload-generation pipeline of the
gusto-react-backend repository.  The definitions below are shallow embeddings
of the Python functions in `src/agents/equity_agent.py`,
`src/agents/payroll_recon.py` and `src/agents/netsuite_push_agent.py`.
Money amounts are modelled as exact rationals; the numeric claims under
scrutiny are algebraic identities that do not hinge on binary floating point.
-/

namespace Gusto

/-! ### Basic string helpers -/

/-- Boolean ASCII digit test, mirroring the regex class `[0-9]` / `\d`. -/
def isDigitB (c : Char) : Bool := '0' ≤ c && c ≤ '9'

/-- ASCII whitespace test, modelling the characters stripped by `str.strip()`. -/
def isSpaceB (c : Char) : Bool :=
  c == ' ' || c == '\t' || c == '\n' || c == '\r' || c == '\x0b' || c == '\x0c'

/-- Python `str.strip()` on a character list: drop whitespace from both ends. -/
def trimChars (l : List Char) : List Char :=
  ((l.dropWhile isSpaceB).reverse.dropWhile isSpaceB).reverse

/-- Python `str.strip()` on a string. -/
def strTrim (s : String) : String := ⟨trimChars s.data⟩

/-- ASCII lower-casing of one character, modelling `str.lower()`. -/
def charLower (c : Char) : Char :=
  if 'A' ≤ c && c ≤ 'Z' then Char.ofNat (c.toNat + 32) else c

/-- Python `str.lower()` on a string (the inputs compared in the code are ASCII). -/
def strLower (s : String) : String := ⟨s.data.map charLower⟩

/-- Numeric value of a digit character. -/
def digitVal (c : Char) : Nat := c.toNat - 48

/-- Natural number denoted by a list of digit characters. -/
def natOfDigits (l : List Char) : Nat := l.foldl (fun acc c => 10 * acc + digitVal c) 0

/-- Boolean test: does `pre` occur at the head of `l`? -/
def charsHavePre : List Char → List Char → Bool
  | [], _ => true
  | _ :: _, [] => false
  | a :: as, b :: bs => a == b && charsHavePre as bs

/-- Boolean test: does `needle` occur contiguously inside `hay`?
Mirrors the Python expression `needle in hay` on strings. -/
def charsContain (needle : List Char) : List Char → Bool
  | [] => charsHavePre needle []
  | c :: cs => charsHavePre needle (c :: cs) || charsContain needle cs

/-- Substring test: `strContainsSub hay needle` mirrors Python `needle in hay`. -/
def strContainsSub (hay needle : String) : Bool :=
  charsContain needle.data hay.data

/-- Non-overlapping left-to-right replacement of every occurrence of `pat`
by `rep`, as Python `str.replace` does; fuel-driven so that it is structural
recursion (the fuel starts at the list length, which always suffices). -/
def replaceGo (pat rep : List Char) : Nat → List Char → List Char
  | 0, l => l
  | _ + 1, [] => []
  | n + 1, c :: cs =>
      if pat ≠ [] && charsHavePre pat (c :: cs) then
        rep ++ replaceGo pat rep n (cs.drop (pat.length - 1))
      else
        c :: replaceGo pat rep n cs

/-- Python `str.replace(pat, rep)` on strings (for the nonempty patterns the code uses). -/
def strReplace (s pat rep : String) : String :=
  ⟨replaceGo pat.data rep.data s.data.length s.data⟩

/-! ### Decimal-literal parsing

`parseDecQ` models Python `float(s)` on a string made of digits and dots
(the only shape produced by the cleaning steps below): at most one dot and
at least one digit, otherwise the parse fails.  `parseNumQ` additionally
accepts one leading sign, modelling `pd.to_numeric` on plain decimal
literals. -/

def splitAtDot (l : List Char) : List Char × Option (List Char) :=
  match l with
  | [] => ([], none)
  | '.' :: rest => ([], some rest)
  | c :: rest =>
      let (ip, fp) := splitAtDot rest
      (c :: ip, fp)

def parseDecQ (l : List Char) : Option ℚ :=
  match splitAtDot l with
  | (ip, none) =>
      if ip ≠ [] && ip.all isDigitB then some (natOfDigits ip) else none
  | (ip, some fp) =>
      if (ip ++ fp) ≠ [] && ip.all isDigitB && fp.all isDigitB && !fp.any (· == '.') then
        some ((natOfDigits ip : ℚ) + (natOfDigits fp : ℚ) / (10 : ℚ) ^ fp.length)
      else none

def parseNumQ (s : String) : Option ℚ :=
  match s.data with
  | '-' :: rest => (parseDecQ rest).map (fun q => -q)
  | '+' :: rest => parseDecQ rest
  | l => parseDecQ l

/-! ### Currency normalisers

Two distinct implementations exist in the repository. -/

/-- Embeds `clean_currency` of `src/agents/equity_agent.py` (lines 108-114),
as the per-cell transformation applied by the pandas expression: strip, drop
every dollar sign, `USD` token and comma, turn the isolated dash token
`" - "` into `0`, then coerce (`errors='coerce'` plus `fillna(0)` gives `0`
on any unparseable remainder). -/
def clean_currency (s : String) : ℚ :=
  let t := strTrim s
  let t := strReplace t "$" ""
  let t := strReplace t "USD" ""
  let t := strReplace t "," ""
  let t := strReplace t " - " "0"
  match parseNumQ t with
  | some q => q
  | none => 0

/-- Embeds `clean_currency` of `src/agents/payroll_recon.py` (lines 108-116):
negativity from any `-` character or from the presence of both parentheses,
strip every character that is not a digit or a dot, parse, apply the sign;
any failure yields `0`. -/
def clean_currency_pr (s : String) : ℚ :=
  let v := strTrim s
  let neg := v.data.contains '-' || (v.data.contains '(' && v.data.contains ')')
  let cleaned := v.data.filter (fun c => isDigitB c || c == '.')
  if cleaned.isEmpty then 0
  else
    match parseDecQ cleaned with
    | some q => if neg then -q else q
    | none => 0

/-! ### External identifier resolution -/

/-- Embeds `get_ns_id` of `src/agents/equity_agent.py` (lines 146-153).
The mapping is an insertion-ordered association list (a Python dict).
A falsy input (empty string) short-circuits to `0`; otherwise exact match on
the trimmed value, then the first entry related to it by substring
containment in either direction, then `0`. -/
def get_ns_id (mapping : List (String × Int)) (value : String) : Int :=
  if value = "" then 0
  else
    let v := strTrim value
    match mapping.find? (fun kv => kv.1 == v) with
    | some kv => kv.2
    | none =>
        match mapping.find? (fun kv => strContainsSub kv.1 v || strContainsSub v kv.1) with
        | some kv => kv.2
        | none => 0

/-- The resolution policy in the words of the spec (claim C5): exact mapping
of the trimmed input when present; otherwise the first table entry whose key
contains the input or is contained in it; otherwise `0`. -/
def resolvePolicySpec (mapping : List (String × Int)) (value : String) : Int :=
  let v := strTrim value
  match mapping.find? (fun kv => kv.1 == v) with
  | some kv => kv.2
  | none =>
      match mapping.find? (fun kv => strContainsSub kv.1 v || strContainsSub v kv.1) with
      | some kv => kv.2
      | none => 0

/-! ### Dates

`generate_payload` computes the transaction date as
`datetime.today().replace(day=1) - timedelta(days=1)`. -/

def isLeapYear (y : Int) : Bool := (y % 4 == 0 && y % 100 != 0) || y % 400 == 0

def daysInMonth (y : Int) (m : Nat) : Nat :=
  if m = 2 then (if isLeapYear y then 29 else 28)
  else if m = 4 ∨ m = 6 ∨ m = 9 ∨ m = 11 then 30
  else 31

structure Date where
  year : Int
  month : Nat
  day : Nat
deriving DecidableEq

/-- Calendar-correct predecessor of a date, the effect of
`- timedelta(days=1)` on a valid Gregorian date. -/
def predDay (d : Date) : Date :=
  if 1 < d.day then ⟨d.year, d.month, d.day - 1⟩
  else if 1 < d.month then ⟨d.year, d.month - 1, daysInMonth d.year (d.month - 1)⟩
  else ⟨d.year - 1, 12, 31⟩

/-- Embeds `(datetime.today().replace(day=1) - timedelta(days=1))` from
`generate_payload` (`equity_agent.py` line 160) as a function of the
execution date. -/
def tranDate (today : Date) : Date := predDay ⟨today.year, today.month, 1⟩

/-- The spec-side description for claim C7: the last calendar day of the
month preceding the given date. -/
def lastDayOfPrecedingMonth (d : Date) : Date :=
  if d.month = 1 then ⟨d.year - 1, 12, daysInMonth (d.year - 1) 12⟩
  else ⟨d.year, d.month - 1, daysInMonth d.year (d.month - 1)⟩

/-! ### Payload generation and balancing -/

/-- One JSON line of a NetSuite journal-entry payload. -/
structure PayloadLine where
  account : Int
  debit : ℚ
  credit : ℚ
  department : Int
  classId : Int
  location : Int
  memo : String
  entity : Int
deriving DecidableEq

/-- The payload document produced by `generate_payload`. -/
structure Payload where
  subsidiary : Int
  tran_date : Date
  memo : String
  lines : List PayloadLine
  approval_status : String
deriving DecidableEq

/-- One row of an entry sheet as read back from the generated workbook
(columns Account, Debit, Credit, Entity, Dept, Location, Class,
Description); `cls` stands for the `Class` column. -/
structure EntryRow where
  account : String
  debit : ℚ
  credit : ℚ
  entity : String
  dept : String
  location : String
  cls : String
  description : String
deriving DecidableEq

/-- The four dimension lookup tables built by `load_local_mappings`. -/
structure Mappings where
  account : List (String × Int)
  dept : List (String × Int)
  classTbl : List (String × Int)
  location : List (String × Int)

/-- Round-half-to-even to an integer, the behaviour of Python `round`. -/
def roundHalfEvenZ (x : ℚ) : Int :=
  let f := ⌊x⌋
  if x - f < 1 / 2 then f
  else if 1 / 2 < x - f then f + 1
  else if f % 2 = 0 then f else f + 1

/-- Python `round(x, 2)` on exact decimal values. -/
def pyRound2 (x : ℚ) : ℚ := (roundHalfEvenZ (100 * x) : ℚ) / 100

/-- Embeds `generate_payload` of `equity_agent.py` (lines 155-205).  The
execution date (`datetime.today()`) is made an explicit parameter; note the
source function receives no period argument at all. -/
def generate_payload (today : Date) (df : List EntryRow) (subsidiary_id : Int)
    (mappings : Mappings) (label : String) : Payload :=
  { subsidiary := subsidiary_id
    tran_date := tranDate today
    memo := if label = "US Payload" then "November 2025_SBC_US" else "Nov 2025_SBC_CA"
    approval_status := "Pending Approval"
    lines := df.filterMap fun row =>
      let acc_id := get_ns_id mappings.account row.account
      let dept_id := get_ns_id mappings.dept row.dept
      let class_id := get_ns_id mappings.classTbl row.cls
      let loc_id := get_ns_id mappings.location row.location
      if row.debit > 1 / 1000 then
        some { account := acc_id, debit := pyRound2 row.debit, credit := 0,
               department := dept_id, classId := class_id, location := loc_id,
               memo := row.description, entity := 0 }
      else if row.credit > 1 / 1000 then
        some { account := acc_id, debit := 0, credit := pyRound2 row.credit,
               department := dept_id, classId := class_id, location := loc_id,
               memo := row.description, entity := 0 }
      else none }

/-- The block of output lines one input line contributes inside
`balance_payload`: the original line always, then a mirrored copy with debit
and credit swapped and the memo suffixed, unless neither amount is positive
(the `continue` branch, which skips only the mirror). -/
def lineExpand (line : PayloadLine) : List PayloadLine :=
  if line.debit > 0 then
    [line, { line with debit := 0, credit := line.debit, memo := line.memo ++ " (balance)" }]
  else if line.credit > 0 then
    [line, { line with credit := 0, debit := line.credit, memo := line.memo ++ " (balance)" }]
  else [line]

/-- Embeds `balance_payload` of `equity_agent.py` (lines 545-569). -/
def balance_payload (p : Payload) : Payload :=
  { p with lines := (p.lines.map lineExpand).flatten }

/-- Total debit over a payload's lines. -/
def debitTotal (p : Payload) : ℚ := (p.lines.map PayloadLine.debit).sum

/-- Total credit over a payload's lines. -/
def creditTotal (p : Payload) : ℚ := (p.lines.map PayloadLine.credit).sum

/-! ### Aggregation engine (run_equity_agent, step 2)

Cells are modelled as strings and exact rationals.  The group-by is grouped
by first occurrence of each key; the claims under scrutiny are about sums,
which do not depend on group order. -/

/-- The grouping tuple `(Entity, Dept, Location, Class)` (`GROUP_BY_COLS`). -/
abbrev GroupKey := String × String × String × String

/-- One record of the amortization sheet restricted to the grouping columns
and the four numeric measures (already coerced, unparseable treated as 0);
`cls` stands for the `Class` column, `exp` for expense-to-amortize,
`earlyEx` for the early-exercised fair value. -/
structure SourceRow where
  entity : String
  dept : String
  location : String
  cls : String
  exp : ℚ
  proceeds : ℚ
  vested : ℚ
  earlyEx : ℚ
deriving DecidableEq

/-- Python `in` on a list of strings. -/
def listHasStr : List String → String → Bool
  | [], _ => false
  | e :: es, s => e == s || listHasStr es s

def TARGET_ENTITIES : List String :=
  ["Gusto Inc Global : Gusto Inc US",
   "Gusto Inc Global : Gusto Inc US : ZP Insurance LLC",
   "Gusto Inc Global : Gusto Canada ULC"]

def ENTRY_ENTITIES_US : List String :=
  ["Gusto Inc Global : Gusto Inc US",
   "Gusto Inc Global : Gusto Inc US : ZP Insurance LLC"]

def ENTRY_ENTITIES_CA : List String :=
  ["Gusto Inc Global : Gusto Canada ULC"]

/-- The per-row effect of `df['Entity'].astype(str).str.strip()`. -/
def stripEntity (r : SourceRow) : SourceRow := { r with entity := strTrim r.entity }

/-- Embeds `df_filt = df[df['Entity'].isin(TARGET_ENTITIES)]` after the
entity-strip step (`equity_agent.py` lines 349-373). -/
def filteredRows (rows : List SourceRow) : List SourceRow :=
  (rows.map stripEntity).filter (fun r => listHasStr TARGET_ENTITIES r.entity)

def rowKey (r : SourceRow) : GroupKey := (r.entity, r.dept, r.location, r.cls)

/-- Sum of one measure over the rows of one group. -/
def keyMeasureSum (rows : List SourceRow) (m : SourceRow → ℚ) (k : GroupKey) : ℚ :=
  ((rows.filter (fun r => rowKey r = k)).map m).sum

/-- The distinct group keys of a row set. -/
def groupKeys (rows : List SourceRow) : List GroupKey := (rows.map rowKey).dedup

/-- One row of the pivot table: a group key plus summed measures. -/
structure AggRow where
  entity : String
  dept : String
  location : String
  cls : String
  exp : ℚ
  proceeds : ℚ
  vested : ℚ
  earlyEx : ℚ
deriving DecidableEq

def aggOfKey (rows : List SourceRow) (k : GroupKey) : AggRow :=
  ⟨k.1, k.2.1, k.2.2.1, k.2.2.2,
   keyMeasureSum rows (·.exp) k, keyMeasureSum rows (·.proceeds) k,
   keyMeasureSum rows (·.vested) k, keyMeasureSum rows (·.earlyEx) k⟩

/-- Embeds `df_filt.groupby(GROUP_BY_COLS)[sum_cols].sum()` applied to the
already-filtered rows (`equity_agent.py` line 377). -/
def pivotRows (rows : List SourceRow) : List AggRow :=
  (groupKeys rows).map (aggOfKey rows)

/-- Embeds `totals = pivot_df[sum_cols].sum()` for one measure column. -/
def pivotTotal (rows : List SourceRow) (m : AggRow → ℚ) : ℚ :=
  ((pivotRows rows).map m).sum

/-- The synthetic grand-total row appended to the pivot table
(`equity_agent.py` lines 387-390): key fields blank except
`Entity = "Grand Total"`, measures taken from `totals`. -/
def grandRow (rows : List SourceRow) : AggRow :=
  ⟨"Grand Total", "", "", "",
   pivotTotal rows (·.exp), pivotTotal rows (·.proceeds),
   pivotTotal rows (·.vested), pivotTotal rows (·.earlyEx)⟩

/-- The full pivot table written to the workbook: grouped rows plus the
grand-total row. -/
def pivotTable (rows : List SourceRow) : List AggRow := pivotRows rows ++ [grandRow rows]

/-! ### Entry builder (prepare_entry_df) -/

/-- The entity subset of the pivot table used by `prepare_entry_df`:
rows whose entity is in the requested subset and is not the grand total. -/
def entrySubset (entities : List String) (pivot : List AggRow) : List AggRow :=
  pivot.filter (fun r => listHasStr entities r.entity && r.entity != "Grand Total")

/-- The allocation line emitted for one subset row inside
`prepare_entry_df`, or nothing when `|expense| < 0.01` (the `continue`). -/
def allocLine (r : AggRow) : Option EntryRow :=
  if |r.exp| < 1 / 100 then none
  else some { account := "60175 Personnel : Stock Option Compensation",
              debit := if r.exp > 0 then r.exp else (0 : ℚ),
              credit := if r.exp > 0 then (0 : ℚ) else |r.exp|,
              entity := r.entity, dept := r.dept, location := r.location, cls := r.cls,
              description := "SBC Expense Allocation" }

/-- Embeds `prepare_entry_df` of `equity_agent.py` (lines 421-454): one
summary line on the APIC equity account crediting the subset's expense
total (`df_sub[col_exp].sum()`), then one allocation line per subset row
with `|expense| ≥ 0.01`, debiting positive amounts and crediting the
absolute value of negative ones. -/
def prepare_entry_df (entities : List String) (suffix : String) (pivot : List AggRow) :
    List EntryRow :=
  { account := "30245 Equity : Additional Paid In Capital : APIC - Stock Option Compensation",
    debit := 0, credit := ((entrySubset entities pivot).map (·.exp)).sum,
    entity := entities.headD "", dept := "0000 Corporate",
    location := "1 San Francisco", cls := "601 Horizontal",
    description := "SBC Expense Accrual - " ++ suffix } ::
  (entrySubset entities pivot).filterMap allocLine

/-- Total of the `Debit` column of an entry table. -/
def entryDebitSum (l : List EntryRow) : ℚ := (l.map EntryRow.debit).sum

/-- Total of the `Credit` column of an entry table. -/
def entryCreditSum (l : List EntryRow) : ℚ := (l.map EntryRow.credit).sum

/-- Sum of the expense measure over the subset rows that `prepare_entry_df`
silently drops (`|expense| < 0.01`). -/
def droppedExpSum (entities : List String) (pivot : List AggRow) : ℚ :=
  (((entrySubset entities pivot).filter (fun r => |r.exp| < 1 / 100)).map (·.exp)).sum

/-! ### Claims C4 and C5 -/

/-- Claim C4, counterexample: the claim states that the currency normalizer
returns `-500.0` on input `"(500)"`, but the `clean_currency` of
`equity_agent.py` (one of the two cited implementations) never inspects
parentheses and coerces `"(500)"` to `0`. -/
theorem C4_clean_currency_counterexample :
    clean_currency "(500)" = 0 ∧ (0 : ℚ) ≠ -500 := by
  refine ⟨by decide, by norm_num⟩

/-- Claim C4 (amended): the `clean_currency` of `payroll_recon.py` returns
`1234.50`, `-500.0`, `0.0`, `0.0` on the four claimed inputs, and never
fails; the `clean_currency` of `equity_agent.py` agrees except on `"(500)"`,
where it returns `0.0` because it does not detect parenthetical negatives. -/
theorem C4_clean_currency_values :
    clean_currency_pr "$1,234.50" = 2469 / 2 ∧
    clean_currency_pr "(500)" = -500 ∧
    clean_currency_pr "-" = 0 ∧
    clean_currency_pr "abc" = 0 ∧
    clean_currency "$1,234.50" = 2469 / 2 ∧
    clean_currency "(500)" = 0 ∧
    clean_currency "-" = 0 ∧
    clean_currency "abc" = 0 := by
  refine ⟨?_, by decide, by decide, by decide, ?_, by decide, by decide, by decide⟩
  · have h : clean_currency_pr "$1,234.50" = ((1234 : ℕ) : ℚ) + ((50 : ℕ) : ℚ) / 10 ^ 2 := rfl
    rw [h]; norm_num
  · have h : clean_currency "$1,234.50" = ((1234 : ℕ) : ℚ) + ((50 : ℕ) : ℚ) / 10 ^ 2 := rfl
    rw [h]; norm_num

/-- Claim C5, counterexample: the claim quantifies over every input value,
but `get_ns_id` short-circuits a falsy (empty) input to `0`, while the
claimed policy would resolve the empty string through substring containment
(the empty string is contained in every key) to the first table value. -/
theorem C5_get_ns_id_counterexample :
    get_ns_id [("a", 5)] "" = 0 ∧ resolvePolicySpec [("a", 5)] "" = 5 ∧ (0 : Int) ≠ 5 := by
  refine ⟨by decide, by decide, by decide⟩

/-- Claim C5 (amended): for every mapping table and every nonempty input
value, `get_ns_id` follows the claimed policy — exact mapping of the trimmed
input when present, else the first table entry related to the input by
substring containment in either direction, else `0` — and in particular
the table `[("60175 Personnel", 42)]` resolves the input
`"60175 Personnel : Stock Option Compensation"` to `42`; an empty input
returns `0` regardless of the table. -/
theorem C5_get_ns_id_spec :
    (∀ (mapping : List (String × Int)) (value : String), value ≠ "" →
      get_ns_id mapping value = resolvePolicySpec mapping value) ∧
    get_ns_id [("60175 Personnel", 42)] "60175 Personnel : Stock Option Compensation" = 42 := by
  refine ⟨fun mapping value h => ?_, by decide⟩
  simp only [get_ns_id, resolvePolicySpec, if_neg h]

/-- Claim C5, witness: the equivalence applied at a concrete nonempty input. -/
theorem C5_get_ns_id_spec_witness :
    get_ns_id [("abc", 7), ("b", 9)] "  b  " = resolvePolicySpec [("abc", 7), ("b", 9)] "  b  " :=
  C5_get_ns_id_spec.1 [("abc", 7), ("b", 9)] "  b  " (by decide)

/-! ### Claims C2, C8 (balance_payload) and C10, C7 (generate_payload) -/

lemma lineExpand_sum_eq (l : PayloadLine)
    (hd : 0 ≤ l.debit) (hc : 0 ≤ l.credit) (hx : ¬(0 < l.debit ∧ 0 < l.credit)) :
    ((lineExpand l).map PayloadLine.debit).sum = ((lineExpand l).map PayloadLine.credit).sum := by
  unfold lineExpand
  by_cases h1 : l.debit > 0
  · have hc0 : l.credit = 0 := le_antisymm (not_lt.mp fun hcc => hx ⟨h1, hcc⟩) hc
    simp [h1, hc0]
  · have hd0 : l.debit = 0 := le_antisymm (not_lt.mp h1) hd
    by_cases h2 : l.credit > 0
    · simp [h1, h2, hd0]
    · have hc0 : l.credit = 0 := le_antisymm (not_lt.mp h2) hc
      simp [h1, h2, hd0, hc0]

lemma expand_flatten_sum_eq : ∀ ls : List PayloadLine,
    (∀ l ∈ ls, 0 ≤ l.debit ∧ 0 ≤ l.credit ∧ ¬(0 < l.debit ∧ 0 < l.credit)) →
    (((ls.map lineExpand).flatten).map PayloadLine.debit).sum
      = (((ls.map lineExpand).flatten).map PayloadLine.credit).sum
  | [], _ => rfl
  | l :: ls, h => by
    have hl := h l (List.mem_cons_self l ls)
    simp only [List.map_cons, List.flatten_cons, List.map_append, List.sum_append]
    rw [expand_flatten_sum_eq ls (fun x hx => h x (List.mem_cons_of_mem _ hx)),
        lineExpand_sum_eq l hl.1 hl.2.1 hl.2.2]

/-- A payload line whose debit is negative: neither amount is positive, so
it satisfies the claim's "at most one of debit/credit positive" hypothesis. -/
def negLine : PayloadLine := ⟨0, -1, 0, 0, 0, 0, "", 0⟩

/-- A one-line payload built from `negLine`. -/
def negPayload : Payload := ⟨1, ⟨2025, 10, 31⟩, "m", [negLine], "Pending Approval"⟩

/-- Claim C2, counterexample: `negPayload` has at most one positive amount
on each line, yet after `balance_payload` total debit is `-1` while total
credit is `0` — the negative line is kept without a mirror, so the claimed
hypothesis ("at most one of debit/credit positive") is too weak. -/
theorem C2_balance_counterexample :
    (negPayload.lines.all fun l => !(decide (0 < l.debit) && decide (0 < l.credit))) = true ∧
    debitTotal (balance_payload negPayload) = -1 ∧
    creditTotal (balance_payload negPayload) = 0 ∧ (-1 : ℚ) ≠ 0 := by
  refine ⟨by decide, ?_, ?_, by norm_num⟩ <;>
    norm_num [debitTotal, creditTotal, balance_payload, negPayload, negLine, lineExpand]

/-- Claim C2 (amended): for every payload whose lines each carry nonnegative
debit and credit with at most one of them positive — the shape
`generate_payload` produces — the payload returned by `balance_payload` has
total debit equal to total credit. -/
theorem C2_balance_payload_balanced (p : Payload)
    (h : ∀ l ∈ p.lines, 0 ≤ l.debit ∧ 0 ≤ l.credit ∧ ¬(0 < l.debit ∧ 0 < l.credit)) :
    debitTotal (balance_payload p) = creditTotal (balance_payload p) := by
  simpa only [debitTotal, creditTotal, balance_payload] using expand_flatten_sum_eq p.lines h

/-- A payload with one debit line and one credit line, as the generator
emits them. -/
def okPayload : Payload :=
  ⟨1, ⟨2025, 10, 31⟩, "m",
    [⟨0, 5, 0, 0, 0, 0, "a", 0⟩, ⟨0, 0, 3, 0, 0, 0, "b", 0⟩], "Pending Approval"⟩

/-- Claim C2, witness: the balance law applied to `okPayload`. -/
theorem C2_balance_payload_balanced_witness :
    debitTotal (balance_payload okPayload) = creditTotal (balance_payload okPayload) :=
  C2_balance_payload_balanced okPayload (by decide)

lemma self_mem_lineExpand (l : PayloadLine) : l ∈ lineExpand l := by
  unfold lineExpand
  split_ifs <;> simp

lemma expand_flatten_length : ∀ ls : List PayloadLine,
    ((ls.map lineExpand).flatten).length =
      ls.length + ls.countP (fun l => decide (0 < l.debit) || decide (0 < l.credit))
  | [] => rfl
  | l :: ls => by
    have hlen : (lineExpand l).length = if 0 < l.debit ∨ 0 < l.credit then 2 else 1 := by
      unfold lineExpand
      by_cases h1 : l.debit > 0
      · simp [h1]
      · by_cases h2 : l.credit > 0
        · simp [h1, h2]
        · simp [h1, h2]
    simp only [List.map_cons, List.flatten_cons, List.length_append,
      expand_flatten_length ls, List.countP_cons, List.length_cons, hlen]
    by_cases h1 : 0 < l.debit
    · simp [h1]
      omega
    · by_cases h2 : 0 < l.credit
      · simp [h1, h2]
        omega
      · simp [h1, h2]
        omega

/-- A payload line with zero debit and zero credit. -/
def zeroLine : PayloadLine := ⟨0, 0, 0, 0, 0, 0, "z", 0⟩

/-- A one-line payload holding only `zeroLine`. -/
def zeroPayload : Payload := ⟨1, ⟨2025, 10, 31⟩, "m", [zeroLine], "Pending Approval"⟩

/-- Claim C8, counterexample: `zeroLine` has neither amount positive, yet
`balance_payload` keeps the original line in the output — the `continue`
in the source runs only after the original has been appended, so the line
is not "skipped entirely" as claimed. -/
theorem C8_skip_counterexample :
    ¬(0 < zeroLine.debit) ∧ ¬(0 < zeroLine.credit) ∧
    (balance_payload zeroPayload).lines = [zeroLine] := by decide

/-- Claim C8 (amended): a line with neither debit nor credit positive gets
no mirror but its original is retained: every input line appears in the
output of `balance_payload`, and the output length is the input length plus
the number of lines with a positive amount (i.e. only those are mirrored). -/
theorem C8_zero_line_retained (p : Payload) :
    (∀ l ∈ p.lines, l ∈ (balance_payload p).lines) ∧
    (balance_payload p).lines.length =
      p.lines.length + p.lines.countP (fun l => decide (0 < l.debit) || decide (0 < l.credit)) := by
  constructor
  · intro l hl
    simp only [balance_payload, List.mem_flatten]
    exact ⟨lineExpand l, List.mem_map_of_mem lineExpand hl, self_mem_lineExpand l⟩
  · simpa only [balance_payload] using expand_flatten_length p.lines

/-- A payload mixing one positive line with the all-zero line. -/
def mixedPayload : Payload :=
  ⟨1, ⟨2025, 10, 31⟩, "m", [⟨0, 5, 0, 0, 0, 0, "a", 0⟩, zeroLine], "Pending Approval"⟩

/-- Claim C8, witness: the retention property applied to `mixedPayload`. -/
theorem C8_zero_line_retained_witness :
    zeroLine ∈ (balance_payload mixedPayload).lines :=
  (C8_zero_line_retained mixedPayload).1 zeroLine (by decide)

/-- Claim C10: the memo of the payload returned by `generate_payload` is one
of exactly two constants determined solely by the label argument —
`"November 2025_SBC_US"` when the label is `"US Payload"` and
`"Nov 2025_SBC_CA"` otherwise — for every execution date, input rows,
subsidiary and mapping tables (and the caller's period is not even an
argument of the function). -/
theorem C10_generate_payload_memo :
    ∀ (today : Date) (df : List EntryRow) (subsidiary_id : Int)
      (mappings : Mappings) (label : String),
      (generate_payload today df subsidiary_id mappings label).memo =
        if label = "US Payload" then "November 2025_SBC_US" else "Nov 2025_SBC_CA" :=
  fun _ _ _ _ _ => rfl

/-- Claim C7: for every execution date with a valid month and every set of
arguments, the payload's transaction date is the last calendar day of the
month preceding the execution date (first day of the current month minus one
day); `generate_payload` takes no period argument, so the result cannot
depend on the caller's period. -/
theorem C7_tran_date_prev_month_end (today : Date) (df : List EntryRow)
    (subsidiary_id : Int) (mappings : Mappings) (label : String)
    (h : 1 ≤ today.month) :
    (generate_payload today df subsidiary_id mappings label).tran_date =
      lastDayOfPrecedingMonth today := by
  show tranDate today = lastDayOfPrecedingMonth today
  rcases today with ⟨y, m, d⟩
  simp only at h
  unfold tranDate predDay lastDayOfPrecedingMonth
  by_cases hm : m = 1
  · subst hm
    simp [daysInMonth]
  · have h2 : 1 < m := lt_of_le_of_ne h (Ne.symm hm)
    simp [hm, h2]

/-- Claim C7, witness: the date law applied at execution date 2025-11-12. -/
theorem C7_tran_date_prev_month_end_witness :
    (generate_payload ⟨2025, 11, 12⟩ [] 1 ⟨[], [], [], []⟩ "US Payload").tran_date =
      lastDayOfPrecedingMonth ⟨2025, 11, 12⟩ :=
  C7_tran_date_prev_month_end ⟨2025, 11, 12⟩ [] 1 ⟨[], [], [], []⟩ "US Payload" (by decide)

/-! ### Claim C3: aggregation conservation -/

lemma keyMeasureSum_cons (r : SourceRow) (rest : List SourceRow)
    (m : SourceRow → ℚ) (k : GroupKey) :
    keyMeasureSum (r :: rest) m k
      = (if rowKey r = k then m r else 0) + keyMeasureSum rest m k := by
  unfold keyMeasureSum
  by_cases h : rowKey r = k
  · simp [List.filter_cons, h]
  · simp [List.filter_cons, h]

lemma fiber_sum_eq (m : SourceRow → ℚ) :
    ∀ (rows : List SourceRow) (K : Finset GroupKey),
      (∀ r ∈ rows, rowKey r ∈ K) →
      (∑ k ∈ K, keyMeasureSum rows m k) = (rows.map m).sum
  | [], _, _ => by simp [keyMeasureSum]
  | r :: rest, K, h => by
    have hr : rowKey r ∈ K := h r (List.mem_cons_self r rest)
    have ih := fiber_sum_eq m rest K (fun x hx => h x (List.mem_cons_of_mem _ hx))
    simp only [keyMeasureSum_cons, Finset.sum_add_distrib, ih, List.map_cons, List.sum_cons]
    congr 1
    rw [Finset.sum_ite_eq K (rowKey r) (fun _ => m r), if_pos hr]

lemma pivotTotal_conserved (rows : List SourceRow) (ms : SourceRow → ℚ) (ma : AggRow → ℚ)
    (hm : ∀ k, ma (aggOfKey rows k) = keyMeasureSum rows ms k) :
    pivotTotal rows ma = (rows.map ms).sum := by
  unfold pivotTotal pivotRows groupKeys
  rw [List.map_map]
  have h1 : ∀ k ∈ (rows.map rowKey).dedup, (ma ∘ aggOfKey rows) k = keyMeasureSum rows ms k :=
    fun k _ => hm k
  rw [List.map_congr_left h1,
      ← List.sum_toFinset _ (List.nodup_dedup (rows.map rowKey))]
  exact fiber_sum_eq ms rows _ (fun r hr => by
    rw [List.mem_toFinset]
    exact List.mem_dedup.mpr (List.mem_map_of_mem rowKey hr))

/-- Claim C3: for every set of source rows, after filtering to the target
entities, the grouped per-key sums add up to the same value as the measure
summed over all filtered rows, and the synthetic grand-total row holds
exactly that sum for each of the four measure columns. -/
theorem C3_aggregation_conservation (rows : List SourceRow) :
    (pivotTotal (filteredRows rows) (·.exp) = ((filteredRows rows).map (·.exp)).sum) ∧
    (pivotTotal (filteredRows rows) (·.proceeds) = ((filteredRows rows).map (·.proceeds)).sum) ∧
    (pivotTotal (filteredRows rows) (·.vested) = ((filteredRows rows).map (·.vested)).sum) ∧
    (pivotTotal (filteredRows rows) (·.earlyEx) = ((filteredRows rows).map (·.earlyEx)).sum) ∧
    (grandRow (filteredRows rows)).exp = ((filteredRows rows).map (·.exp)).sum ∧
    (grandRow (filteredRows rows)).proceeds = ((filteredRows rows).map (·.proceeds)).sum ∧
    (grandRow (filteredRows rows)).vested = ((filteredRows rows).map (·.vested)).sum ∧
    (grandRow (filteredRows rows)).earlyEx = ((filteredRows rows).map (·.earlyEx)).sum := by
  have he := pivotTotal_conserved (filteredRows rows) (·.exp) (·.exp) (fun _ => rfl)
  have hp := pivotTotal_conserved (filteredRows rows) (·.proceeds) (·.proceeds) (fun _ => rfl)
  have hv := pivotTotal_conserved (filteredRows rows) (·.vested) (·.vested) (fun _ => rfl)
  have hx := pivotTotal_conserved (filteredRows rows) (·.earlyEx) (·.earlyEx) (fun _ => rfl)
  exact ⟨he, hp, hv, hx, he, hp, hv, hx⟩

/-! ### Claim C1: entry-table balance -/

lemma entryDebitSum_cons (e : EntryRow) (l : List EntryRow) :
    entryDebitSum (e :: l) = e.debit + entryDebitSum l := by
  simp [entryDebitSum]

lemma entryCreditSum_cons (e : EntryRow) (l : List EntryRow) :
    entryCreditSum (e :: l) = e.credit + entryCreditSum l := by
  simp [entryCreditSum]

lemma alloc_net_sum : ∀ ls : List AggRow,
    entryDebitSum (ls.filterMap allocLine) - entryCreditSum (ls.filterMap allocLine)
      = ((ls.filter (fun r => !decide (|r.exp| < 1 / 100))).map (·.exp)).sum
  | [] => by simp [entryDebitSum, entryCreditSum]
  | r :: ls => by
    have ih := alloc_net_sum ls
    by_cases h : |r.exp| < 1 / 100
    · simp only [List.filterMap_cons, allocLine, if_pos h, List.filter_cons]
      simp only [h, decide_True, Bool.not_true, Bool.false_eq_true, if_false]
      exact ih
    · simp only [List.filterMap_cons, allocLine, if_neg h, List.filter_cons]
      simp only [h, decide_False, Bool.not_false, if_true, entryDebitSum_cons,
        entryCreditSum_cons, List.map_cons, List.sum_cons]
      by_cases hp : r.exp > 0
      · simp only [if_pos hp]
        linarith [ih]
      · have habs : |r.exp| = -r.exp := abs_of_nonpos (not_lt.mp hp)
        simp only [if_neg hp, habs]
        linarith [ih]


lemma exp_split : ∀ ls : List AggRow,
    (ls.map (·.exp)).sum
      = ((ls.filter (fun r => decide (|r.exp| < 1 / 100))).map (·.exp)).sum
        + ((ls.filter (fun r => !decide (|r.exp| < 1 / 100))).map (·.exp)).sum
  | [] => by simp
  | r :: ls => by
    by_cases h : |r.exp| < 1 / 100
    · rw [List.filter_cons_of_pos (by simpa using h), List.filter_cons_of_neg (by simpa using h)]
      simp only [List.map_cons, List.sum_cons, exp_split ls]
      ring
    · rw [List.filter_cons_of_neg (by simpa using h), List.filter_cons_of_pos (by simpa using h)]
      simp only [List.map_cons, List.sum_cons, exp_split ls]
      ring

/-- An aggregated row whose expense `0.005` lies strictly between `0` and
the `0.01` drop threshold of the entry builder. -/
def tinyAgg : AggRow := ⟨"Gusto Inc Global : Gusto Canada ULC", "d", "l", "c", 1 / 200, 0, 0, 0⟩

/-- Claim C1, counterexample: on a subset holding one aggregated row with
expense `0.005`, `prepare_entry_df` drops the allocation line but still
credits the full subset total on the summary line, so the table's
`sum(Debit) - sum(Credit)` is `-0.005`, not `0`. -/
theorem C1_balance_counterexample :
    entryDebitSum (prepare_entry_df ENTRY_ENTITIES_CA "Canada" [tinyAgg])
      - entryCreditSum (prepare_entry_df ENTRY_ENTITIES_CA "Canada" [tinyAgg]) = -(1 / 200) ∧
    (-(1 / 200) : ℚ) ≠ 0 := by
  have hne : "Gusto Inc Global : Gusto Canada ULC" = "Grand Total" ↔ False := by
    simp only [iff_false]
    decide
  have habs : |(1 : ℚ) / 200| < 1 / 100 := by
    rw [abs_of_pos] <;> norm_num
  constructor
  · norm_num [prepare_entry_df, entrySubset, entryDebitSum, entryCreditSum, allocLine,
      listHasStr, tinyAgg, ENTRY_ENTITIES_CA, List.filter_cons, List.filterMap_cons, hne, habs]
  · norm_num

/-- Claim C1 (amended): for every entity subset and pivot table, the entry
table of `prepare_entry_df` satisfies `sum(Debit) - sum(Credit) ==` minus
the sum of the expense measure over the dropped near-zero subset rows
(`|expense| < 0.01`); balance holds exactly when those dropped expenses
cancel, e.g. whenever no nonzero row is dropped. -/
theorem C1_entry_balance (entities : List String) (suffix : String) (pivot : List AggRow) :
    entryDebitSum (prepare_entry_df entities suffix pivot)
      - entryCreditSum (prepare_entry_df entities suffix pivot)
      = -droppedExpSum entities pivot := by
  have h1 := alloc_net_sum (entrySubset entities pivot)
  have h2 := exp_split (entrySubset entities pivot)
  simp only [prepare_entry_df, droppedExpSum, entryDebitSum_cons, entryCreditSum_cons]
  linarith [h1, h2]

/-! ### Claim C6: reconciliation verdict -/

/-- Round half away from zero to an integer, the rounding used by Excel
`ROUND`. -/
def roundHalfAwayZ (x : ℚ) : Int :=
  if 0 ≤ x then ⌊x + 1 / 2⌋ else -⌊-x + 1 / 2⌋

/-- Excel `ROUND(x, 2)` on exact values. -/
def excelRound2 (x : ℚ) : ℚ := (roundHalfAwayZ (100 * x) : ℚ) / 100

/-- Embeds the validation formula written by `write_check`
(`equity_agent.py` line 481), `IF(ABS(ROUND(p-s,2))<1, MATCH, CHECK)`,
as a function of the pivot total and the journal (Shareworks) total. -/
def reconValidation (p s : ℚ) : String :=
  if |excelRound2 (p - s)| < 1 then "MATCH" else "CHECK"

lemma roundAway_lt_iff (y : ℚ) : |(roundHalfAwayZ y : ℚ)| < 100 ↔ |y| < 199 / 2 := by
  unfold roundHalfAwayZ
  by_cases h : 0 ≤ y
  · rw [if_pos h, abs_of_nonneg h]
    have h0 : (0 : ℤ) ≤ ⌊y + 1 / 2⌋ := Int.floor_nonneg.mpr (by linarith)
    rw [abs_of_nonneg (by exact_mod_cast h0 : (0 : ℚ) ≤ (⌊y + 1 / 2⌋ : ℚ))]
    constructor
    · intro hlt
      have h1 : ⌊y + 1 / 2⌋ < (100 : ℤ) := by exact_mod_cast hlt
      have h2 : y + 1 / 2 < ((100 : ℤ) : ℚ) := Int.floor_lt.mp h1
      push_cast at h2
      linarith
    · intro hlt
      have h2 : y + 1 / 2 < ((100 : ℤ) : ℚ) := by push_cast; linarith
      have h1 : ⌊y + 1 / 2⌋ < (100 : ℤ) := Int.floor_lt.mpr h2
      exact_mod_cast h1
  · push_neg at h
    rw [if_neg (not_le.mpr h), abs_of_neg h]
    have h0 : (0 : ℤ) ≤ ⌊-y + 1 / 2⌋ := Int.floor_nonneg.mpr (by linarith)
    rw [Int.cast_neg, abs_neg,
      abs_of_nonneg (by exact_mod_cast h0 : (0 : ℚ) ≤ (⌊-y + 1 / 2⌋ : ℚ))]
    constructor
    · intro hlt
      have h1 : ⌊-y + 1 / 2⌋ < (100 : ℤ) := by exact_mod_cast hlt
      have h2 : -y + 1 / 2 < ((100 : ℤ) : ℚ) := Int.floor_lt.mp h1
      push_cast at h2
      linarith
    · intro hlt
      have h2 : -y + 1 / 2 < ((100 : ℤ) : ℚ) := by push_cast; linarith
      have h1 : ⌊-y + 1 / 2⌋ < (100 : ℤ) := Int.floor_lt.mpr h2
      exact_mod_cast h1

lemma excelRound2_lt_one_iff (d : ℚ) : |excelRound2 d| < 1 ↔ |d| < 199 / 200 := by
  unfold excelRound2
  rw [abs_div, abs_of_pos (by norm_num : (0 : ℚ) < 100),
    div_lt_iff₀ (by norm_num : (0 : ℚ) < 100), one_mul, roundAway_lt_iff, abs_mul,
    abs_of_pos (by norm_num : (0 : ℚ) < 100)]
  constructor <;> intro h <;> linarith

/-- Claim C6: the reconciliation verdict is MATCH exactly when the rounded
absolute difference of the two totals is below one currency unit —
equivalently, exactly when `|p - s| < 0.995` — and in particular pivot
`1000.00` against journal `999.50` yields MATCH while `1000.00` against
`998.00` yields CHECK. -/
theorem C6_match_check_rule :
    (∀ p s : ℚ, reconValidation p s = "MATCH" ↔ |excelRound2 (p - s)| < 1) ∧
    (∀ p s : ℚ, reconValidation p s = "MATCH" ↔ |p - s| < 199 / 200) ∧
    reconValidation 1000 (1999 / 2) = "MATCH" ∧
    reconValidation 1000 998 = "CHECK" := by
  have hiff : ∀ p s : ℚ, reconValidation p s = "MATCH" ↔ |excelRound2 (p - s)| < 1 := by
    intro p s
    unfold reconValidation
    split_ifs with h
    · simp [h]
    · simp only [h, iff_false]
      decide
  refine ⟨hiff, ?_, ?_, ?_⟩
  · intro p s
    rw [hiff p s, excelRound2_lt_one_iff]
  · unfold reconValidation
    rw [if_pos]
    rw [excelRound2_lt_one_iff]
    rw [show (1000 : ℚ) - 1999 / 2 = 1 / 2 by norm_num, abs_of_pos (by norm_num : (0:ℚ) < 1/2)]
    norm_num
  · unfold reconValidation
    rw [if_neg]
    rw [excelRound2_lt_one_iff]
    rw [show (1000 : ℚ) - 998 = 2 by norm_num, abs_of_pos (by norm_num : (0:ℚ) < 2)]
    norm_num

/-! ### Claim C9: the NetSuite push step -/

/-- One row of the `Equity_Agent_Database` ledger sheet.  A blank or
missing payload cell is modelled as a string that trims to empty, matching
the code's `pd.isna(cell) or str(cell).strip() == ""` skip. -/
structure LedgerRow where
  date : String
  fileName : String
  link : String
  approval : String
  payloadUS : String
  payloadCAD : String
  pushStatus : String
  output : String
deriving DecidableEq

/-- The row-selection guard of `process_equity_agent_sheet`
(`netsuite_push_agent.py` lines 259-263): trimmed lower-cased approval must
be `approved` and trimmed lower-cased push status must not be `pass`. -/
def rowSelectedB (row : LedgerRow) : Bool :=
  strLower (strTrim row.approval) == "approved" && strLower (strTrim row.pushStatus) != "pass"

/-- The per-cell step of the payload loop (`netsuite_push_agent.py` lines
271-301): skip cells that trim to blank; otherwise submit the trimmed path,
append the outcome message to the logs and conjoin the success flag.
`submit` abstracts loading the JSON file at a path and posting it through
the MCP client; file-not-found and JSON-load errors are failed submissions
whose error text is the message. -/
def cellStep (submit : String → Bool × String) (acc : List String × Bool) (cell : String) :
    List String × Bool :=
  if strTrim cell = "" then acc
  else (acc.1 ++ [(submit (strTrim cell)).2], acc.2 && (submit (strTrim cell)).1)

/-- Embeds the body of `process_equity_agent_sheet` for one row
(`netsuite_push_agent.py` lines 258-306): selected rows walk the US and CAD
payload cells, then write back the newline-joined log and the Pass/Fail
status, but only when at least one message was logged. -/
def processRow (submit : String → Bool × String) (row : LedgerRow) : LedgerRow :=
  if rowSelectedB row then
    let acc := cellStep submit (cellStep submit ([], true) row.payloadUS) row.payloadCAD
    if acc.1 ≠ [] then
      { row with output := String.intercalate "\n" acc.1,
                 pushStatus := if acc.2 then "Pass" else "Fail" }
    else row
  else row

/-- Embeds the full sheet pass of `process_equity_agent_sheet`: each row is
processed independently of the others. -/
def process_equity_agent_sheet (submit : String → Bool × String) (rows : List LedgerRow) :
    List LedgerRow :=
  rows.map (processRow submit)

/-- The payload references of a row: the nonempty trimmed US and CAD cells,
in that order. -/
def rowRefs (row : LedgerRow) : List String :=
  ([row.payloadUS, row.payloadCAD].map strTrim).filter (fun p => p ≠ "")

/-- The per-row behaviour in the words of the (amended) claim C9: a row
whose trimmed lower-cased approval equals `approved`, whose trimmed
lower-cased push status is not `pass`, and which references at least one
payload, gets push status `Pass` exactly when every referenced submission
succeeds and `Fail` otherwise, with every per-payload outcome message
joined by newlines into the output cell; every other row — not selected, or
selected but with no payload references — is left unchanged. -/
def specProcessRow (submit : String → Bool × String) (row : LedgerRow) : LedgerRow :=
  if rowSelectedB row ∧ rowRefs row ≠ [] then
    { row with
      pushStatus := if (rowRefs row).all (fun p => (submit p).1) then "Pass" else "Fail",
      output := String.intercalate "\n" ((rowRefs row).map (fun p => (submit p).2)) }
  else row

/-- A submission stub that always succeeds. -/
def submitOkStub : String → Bool × String := fun _ => (true, "SUCCESS")

/-- A ledger row approved in upper case, with one payload reference. -/
def rowUpper : LedgerRow :=
  ⟨"2025-11-01", "f.xlsx", "l", "APPROVED", "us.json", "", "Pending", ""⟩

/-- An approved, pending ledger row with no payload references. -/
def rowNoRefs : LedgerRow :=
  ⟨"2025-11-01", "f.xlsx", "l", "Approved", "", "", "Pending", ""⟩

/-- Claim C9, counterexample: the push step's selection is not literal
equality with `"Approved"` — a row approved as `"APPROVED"` is submitted
and marked `Pass` — and a processed row with no payload references gets no
status written back at all (it stays `Pending`), whereas the claim would
have every processed row marked `Pass` when all (zero) submissions
succeed. -/
theorem C9_push_counterexample :
    rowUpper.approval ≠ "Approved" ∧
    process_equity_agent_sheet submitOkStub [rowUpper]
      = [{ rowUpper with pushStatus := "Pass", output := "SUCCESS" }] ∧
    rowNoRefs.approval = "Approved" ∧
    rowNoRefs.pushStatus = "Pending" ∧
    process_equity_agent_sheet submitOkStub [rowNoRefs] = [rowNoRefs] := by decide

/-- Claim C9 (amended): the push step processes exactly the rows whose
trimmed, lower-cased approval is `approved` and whose trimmed, lower-cased
push status is not `pass`; for every such row with at least one payload
reference it writes push status `Pass` when all referenced submissions
succeed and `Fail` when any fails (in particular when one of US/CAD fails),
concatenating every per-payload outcome message into the output-response
cell; all other rows, including selected rows with no payload references,
are left unchanged. -/
theorem C9_push_spec (submit : String → Bool × String) (rows : List LedgerRow) :
    process_equity_agent_sheet submit rows = rows.map (specProcessRow submit) := by
  unfold process_equity_agent_sheet
  apply List.map_congr_left
  intro row _
  unfold processRow specProcessRow
  by_cases hsel : rowSelectedB row
  · by_cases h1 : strTrim row.payloadUS = ""
    · by_cases h2 : strTrim row.payloadCAD = ""
      · simp [cellStep, rowRefs, hsel, h1, h2]
      · simp [cellStep, rowRefs, hsel, h1, h2]
    · by_cases h2 : strTrim row.payloadCAD = ""
      · simp [cellStep, rowRefs, hsel, h1, h2]
      · simp [cellStep, rowRefs, hsel, h1, h2]
  · simp [hsel]

end Gusto
